import Mathlib

/-!
Verification of the gurobi_solvers repository: a shallow embedding of the
model-building, solution-extraction and infeasibility-diagnosis layers of the
four solvers (Solver_sonia.py, solver_nour.py, Solver_mariem.py,
Solver_zaineb.py, with constants from data.py), together with theorems that
settle the specification claims about them.

Conventions of the embedding:
* Python floats are modelled as rationals; the thresholds 0.01, 0.5, 0.8 and
  0.7 appear as the corresponding rationals.
* Gurobi is external; the status code it returns after `optimize()` is a plain
  natural number argument (2 = OPTIMAL, 3 = INFEASIBLE, 4 = INF_OR_UNBD,
  5 = UNBOUNDED, 9 = TIME_LIMIT, 11 = INTERRUPTED, 12 = NUMERIC,
  13 = SUBOPTIMAL), and the variable values of the incumbent assignment are
  function arguments.  The post-`optimize` part of each `solve` is embedded as
  a function of those arguments.  A Python exception raised across a function
  boundary is modelled with `Except`; an exception caught inside the function
  (the `computeIIS` try/except) is modelled by an `Option` argument, `none`
  standing for the raising call.
* A model built by a solver is embedded as its feasibility predicate: the
  conjunction, over exactly the constraint families the Python code adds to
  the Gurobi model, of the corresponding arithmetic facts about an assignment,
  together with the declared variable bounds.
-/

/-! ## Python string primitives used by the diagnoser -/

/-- Character-list core of Python `str.startswith`: does the second list start
with the first? -/
def strStartsChars : List Char → List Char → Bool
  | [], _ => true
  | _ :: _, [] => false
  | p :: ps, c :: cs => p == c && strStartsChars ps cs

/-- Python `name.startswith(p)`. -/
def pyStartsWith (s p : String) : Bool := strStartsChars p.data s.data

/-- Helper for `pySplit`: scan the remaining characters, `acc` holding the
(reversed) characters of the field currently being read. -/
def pySplitAux : List Char → List Char → List String
  | [], acc => [String.mk acc.reverse]
  | c :: cs, acc =>
    if c = '_' then String.mk acc.reverse :: pySplitAux cs [] else pySplitAux cs (c :: acc)

/-- Python `name.split("_")`. -/
def pySplit (s : String) : List String := pySplitAux s.data []

/-- Python `"_".join(l)` for a nonempty list, `""` for the empty list. -/
def joinUnderscore : List String → String
  | [] => ""
  | x :: xs => xs.foldl (fun acc y => acc ++ "_" ++ y) x

/-! ## data.py -/

def DAYS : List String := ["Lundi", "Mardi", "Mercredi", "Jeudi", "Vendredi", "Samedi", "Dimanche"]

def SHIFTS : List String := ["Matin", "Garde"]

def COMPETENCES : List String := ["infirmier", "medecin"]

def MIN_SHIFTS : ℕ := 2

def MAX_SHIFTS : ℕ := 8

def MAX_CONSEC_MATIN : ℕ := 5

/-- data.py DEMAND = default_demand(): the same per-shift requirement every
day; `.get(k, 0)` on an unknown competence returns 0. -/
def demandVal (_day shift comp : String) : ℚ :=
  if shift = "Matin" ∧ comp = "infirmier" then 3
  else if shift = "Matin" ∧ comp = "medecin" then 1
  else if shift = "Garde" ∧ comp = "infirmier" then 2
  else if shift = "Garde" ∧ comp = "medecin" then 1
  else 0

/-- The ids of data.py DEFAULT_CANDIDATES (I1..I10 from the first loop,
M1..M4 from the second). -/
def defaultIds : List String :=
  ["I1", "I2", "I3", "I4", "I5", "I6", "I7", "I8", "I9", "I10", "M1", "M2", "M3", "M4"]

/-- data.py default_availability: every candidate available every day. -/
def defaultAvailability : String → String → ℕ := fun _ _ => 1

/-! ## Solver_sonia.py: constraint names emitted by HiringScheduler.solve -/

def coverName (d s k : String) : String := "cover_" ++ d ++ "_" ++ s ++ "_" ++ k

def linkName (e d s : String) : String := "link_" ++ e ++ "_" ++ d ++ "_" ++ s

def unavailableName (e d s : String) : String := "unavailable_" ++ e ++ "_" ++ d ++ "_" ++ s

def onePerDayName (e d : String) : String := "one_per_day_" ++ e ++ "_" ++ d

def restGuardMatinName (e d0 d1 : String) : String :=
  "rest_guard_matin_" ++ e ++ "_" ++ d0 ++ "_" ++ d1

def spacingGardeName (e : String) (window : List String) : String :=
  "spacing_garde_" ++ e ++ "_" ++ joinUnderscore window

def maxMatinSeqName (e : String) (window : List String) : String :=
  "max_matin_seq_" ++ e ++ "_" ++ joinUnderscore window

def maxTotalName (e : String) : String := "max_total_" ++ e

def minTotalName (e : String) : String := "min_total_" ++ e

/-- The sliding windows `DAYS[start:start+w]` for `start` in
`range(len(DAYS)-w+1)`, as used for the spacing_garde (w = 3) and
max_matin_seq (w = MAX_CONSEC_MATIN+1) constraints. -/
def dayWindows (w : ℕ) : List (List String) :=
  (List.range (DAYS.length - w + 1)).map (fun start => (DAYS.drop start).take w)

/-- Every constraint name `HiringScheduler.solve` passes to `addConstr`, in
program order, for candidate ids `ids` and availability map `avail`
(`avail e d = 0` meaning unavailable, mirroring
`self.avail.get(e,{}).get(d,1) == 0`). -/
def hiringConstraintNames (ids : List String) (avail : String → String → ℕ) : List String :=
  (DAYS.flatMap fun d => SHIFTS.flatMap fun s =>
    (COMPETENCES.filter (fun k => decide (0 < demandVal d s k))).map fun k => coverName d s k) ++
  (ids.flatMap fun e => DAYS.flatMap fun d => SHIFTS.map fun s => linkName e d s) ++
  (ids.flatMap fun e => DAYS.flatMap fun d => SHIFTS.flatMap fun s =>
    if avail e d = 0 then [unavailableName e d s] else []) ++
  (ids.flatMap fun e => DAYS.map fun d => onePerDayName e d) ++
  (ids.flatMap fun e => (List.range (DAYS.length - 1)).map fun i =>
    restGuardMatinName e (DAYS.getD i "") (DAYS.getD (i + 1) "")) ++
  (ids.flatMap fun e => (dayWindows 3).map fun w => spacingGardeName e w) ++
  (ids.flatMap fun e => (dayWindows (MAX_CONSEC_MATIN + 1)).map fun w => maxMatinSeqName e w) ++
  (ids.flatMap fun e => [maxTotalName e, minTotalName e])

/-! ## Solver_sonia.py: HiringScheduler.explain_iis -/

/-- The fallback message `f"Contrainte en conflit: {name}"`. -/
def genericMsg (name : String) : String := "Contrainte en conflit: " ++ name

/-- Body of `explain_iis` for one name, after `parts = name.split("_")`:
the if/elif chain of Solver_sonia.py lines 113-141.  Tuple unpacking
`parts[:n]` is rendered with `List.getD`; the guards `len(parts) >= n`
guarantee the indices are in range exactly when Python does. -/
def explainCore (name : String) (parts : List String) : String :=
  if pyStartsWith name "cover_" && decide (4 ≤ parts.length) then
    "Sous-effectif: manque compétence \x27" ++ parts.getD 3 "" ++ "\x27 pour le créneau " ++
      parts.getD 1 "" ++ "_" ++ parts.getD 2 "" ++ "."
  else if pyStartsWith name "unavailable_" && decide (4 ≤ parts.length) then
    "Indispo: " ++ parts.getD 1 "" ++ " n\x27est pas disponible " ++ parts.getD 2 "" ++
      " (" ++ parts.getD 3 "" ++ ")."
  else if pyStartsWith name "one_per_day_" && decide (3 ≤ parts.length) then
    "Conflit: " ++ parts.getD 1 "" ++ " doit avoir ≤1 shift le jour " ++ parts.getD 2 "" ++ "."
  else if pyStartsWith name "rest_guard_matin_" && decide (6 ≤ parts.length) then
    "Repos insuffisant: " ++ parts.getD 3 "" ++ " garde le " ++ parts.getD 4 "" ++
      " empêche le day suivant."
  else if pyStartsWith name "spacing_garde_" && decide (5 ≤ parts.length) then
    "Spacing gardes: " ++ parts.getD 2 "" ++ " ne peut pas avoir gardes proches (" ++
      parts.getD 3 "" ++ ", " ++ (parts.drop 5).getLastD (parts.getD 4 "") ++ ")."
  else if pyStartsWith name "max_matin_seq_" && decide (5 ≤ parts.length) then
    "Max Matin: trop de Matin consécutifs pour " ++ parts.getD 2 "" ++ " (" ++
      parts.getD 3 "" ++ " à " ++ (parts.drop 5).getLastD (parts.getD 4 "") ++ ")."
  else if pyStartsWith name "min_total_" && decide (2 ≤ parts.length) then
    "Min shifts impossible pour " ++ parts.getD 1 "" ++ "."
  else if pyStartsWith name "max_total_" && decide (2 ≤ parts.length) then
    "Max shifts violée pour " ++ parts.getD 1 "" ++ "."
  else genericMsg name

/-- The message `explain_iis` appends for a single constraint name. -/
def explain_one (name : String) : String := explainCore name (pySplit name)

/-- `HiringScheduler.explain_iis`: one message per name, in order. -/
def explain_iis (iis : List String) : List String := iis.map explain_one

/-! ## Solver_sonia.py: HiringScheduler.solve, post-optimize dispatch -/

/-- One entry of the candidates list (data.py format): id, the two
qualification flags of `qual`, hire cost. -/
structure Candidate where
  id : String
  qualInf : ℕ
  qualMed : ℕ
  hireCost : ℚ

/-- `next(c for c in candidates if c["id"] == e)["qual"]["infirmier"]`.
Candidate ids are produced from the candidates list itself, so the
`find?` always succeeds at the call sites. -/
def candInf (cands : List Candidate) (e : String) : ℕ :=
  ((cands.find? (fun c => c.id = e)).map (fun c => c.qualInf)).getD 0

def candMed (cands : List Candidate) (e : String) : ℕ :=
  ((cands.find? (fun c => c.id = e)).map (fun c => c.qualMed)).getD 0

/-- `status_map.get(m.status, f"other({m.status})")` of Solver_sonia.py. -/
def soniaStatusMap (st : ℕ) : String :=
  if st = 2 then "optimal"
  else if st = 13 then "suboptimal"
  else if st = 9 then "time_limit"
  else if st = 3 then "infeasible"
  else if st = 4 then "infeasible_or_unbounded"
  else "other(" ++ Nat.repr st ++ ")"

/-- The fields computed by the extraction block of `HiringScheduler.solve`
(lines 94-108): hired ids, active (e,d,s) assignment triples, headcounts by
qualification, objective value. -/
structure SoniaExtraction where
  hired : List String
  actives : List (String × String × String)
  totalInfirmiers : ℕ
  totalMedecins : ℕ
  objective : ℚ

/-- The extraction block of `HiringScheduler.solve`, reading the incumbent
values `x` (hire) and `y` (assignment). -/
def soniaExtract (cands : List Candidate) (x : String → ℚ)
    (y : String × String × String → ℚ) (objVal : ℚ) : SoniaExtraction :=
  let ids := cands.map (fun c => c.id)
  let hired := ids.filter (fun e => decide ((1 : ℚ)/2 < x e))
  let actives := ids.flatMap fun e => DAYS.flatMap fun d => SHIFTS.flatMap fun s =>
    if (1 : ℚ)/2 < y (e, d, s) then [(e, d, s)] else []
  ⟨hired, actives,
    (hired.filter (fun e => decide (candInf cands e = 1))).length,
    (hired.filter (fun e => decide (candMed cands e = 1))).length,
    objVal⟩

/-- The dictionary `HiringScheduler.solve` returns (minus the raw model
handle): status string, and the iis/messages or extraction fields of the
branch that produced it. -/
structure SoniaResult where
  status : String
  iis : Option (List String)
  messages : Option (List String)
  extraction : Option SoniaExtraction

/-- Post-`optimize` dispatch of `HiringScheduler.solve` (lines 74-108).
`iisComputed = none` models `m.computeIIS()` raising, in which case the
`except` clause sets `iis = []`. -/
def HiringScheduler_solve (st : ℕ) (iisComputed : Option (List String))
    (cands : List Candidate) (x : String → ℚ) (y : String × String × String → ℚ)
    (objVal : ℚ) : SoniaResult :=
  if st = 3 ∨ st = 4 then
    let iis := iisComputed.getD []
    ⟨soniaStatusMap st, some iis, some (explain_iis iis), none⟩
  else if ¬(st = 2 ∨ st = 13 ∨ st = 9) then
    ⟨soniaStatusMap st, none, none, none⟩
  else
    ⟨soniaStatusMap st, none, none, some (soniaExtract cands x y objVal)⟩

/-! ## Solver_zaineb.py: optimize_military_schedule -/

/-- Python `range(a, b)` over the integers. -/
def pyRange (a b : ℤ) : List ℤ := (List.range (b - a).toNat).map (fun (i : ℕ) => a + (i : ℤ))

/-- Start offsets for which `optimize_military_schedule` creates a binary
variable: `range(max(0, horizon - dur + 1))`. -/
def startOffsets (horizon dur : ℤ) : List ℤ := pyRange 0 (max 0 (horizon - dur + 1))

/-- One mission of the input dictionary.  `deadline` is `none` when the key
is absent (Python `missions[m].get("deadline", horizon)`). -/
structure Mission where
  id : String
  dur : ℤ
  priority : ℚ
  deadline : Option ℤ
  req : List (String × ℚ)

/-- `missions[m]["req"].get(r, 0)`. -/
def reqGet (m : Mission) (r : String) : ℚ :=
  (((m.req.filter (fun p => p.1 = r)).getLast?).map (fun p => p.2)).getD 0

/-- `missions[m].get("deadline", horizon)`. -/
def deadlineOf (m : Mission) (horizon : ℤ) : ℤ := m.deadline.getD horizon

/-- Resource draw of all missions whose active window covers hour `t`
(the inner `quicksum` of the resource constraints, lines 61-68). -/
def resourceLoad (missions : List Mission) (horizon : ℤ) (x : String → ℤ → ℚ)
    (r : String) (t : ℤ) : ℚ :=
  (missions.map (fun m =>
    ((pyRange (max 0 (t - m.dur + 1)) (min (t + 1) (horizon - m.dur + 1))).map
      (fun s => x m.id s * reqGet m r)).sum)).sum

/-- Feasibility for the military-scheduling model: variable integrality
(binary), resource constraints `res_*`, deadline constraints `dead_*`, and
the at-most-one-start constraints `once_*`. -/
def MilitaryFeasible (missions : List Mission) (resources : List (String × ℚ))
    (horizon : ℤ) (x : String → ℤ → ℚ) : Prop :=
  (∀ m ∈ missions, ∀ t ∈ startOffsets horizon m.dur, x m.id t = 0 ∨ x m.id t = 1) ∧
  (∀ r ∈ resources, ∀ t ∈ pyRange 0 horizon, resourceLoad missions horizon x r.1 t ≤ r.2) ∧
  (∀ m ∈ missions, ∀ t ∈ startOffsets horizon m.dur,
    deadlineOf m horizon < t + m.dur → x m.id t = 0) ∧
  (∀ m ∈ missions, ((startOffsets horizon m.dur).map (fun t => x m.id t)).sum ≤ 1)

/-- Schedule extraction (lines 119-124): for each mission, the last offset
whose variable value exceeds 0.5, else `none`. -/
def scheduleOf (x : String → ℤ → ℚ) (horizon : ℤ) (m : Mission) : Option ℤ :=
  (startOffsets horizon m.dur).foldl
    (fun acc t => if (1 : ℚ)/2 < x m.id t then some t else acc) none

/-- Status check of `optimize_military_schedule` (lines 110-114): any status
outside OPTIMAL/TIME_LIMIT/SUBOPTIMAL raises `RuntimeError`; otherwise the
(schedule, objective) pair is returned. -/
def optimize_military_dispatch (st : ℕ) (schedule : List (String × Option ℤ))
    (objVal : ℚ) : Except String (List (String × Option ℤ) × ℚ) :=
  if st = 2 ∨ st = 9 ∨ st = 13 then Except.ok (schedule, objVal)
  else Except.error ("Gurobi n\x27a pas trouvé de solution valide (statut: " ++ Nat.repr st ++ ")")

/-! ## solver_nour.py: EvacuationSolver -/

/-- One edge of the evacuation network: `(from, to, capacity, time)`. -/
structure NEdge where
  u : String
  v : String
  cap : ℤ
  time : ℤ

/-- `edges_in[n]`: the edges whose head is `n`, in input order. -/
def edgesInto (edges : List NEdge) (n : String) : List NEdge :=
  edges.filter (fun e => e.v = n)

/-- `edges_out[n]`: the edges whose tail is `n`, in input order. -/
def edgesOutOf (edges : List NEdge) (n : String) : List NEdge :=
  edges.filter (fun e => e.u = n)

/-- `edge_dict[(u,v)]`: a Python dict keyed by (from,to), so the last
occurrence of a key wins. -/
def edgeDictLookup (edges : List NEdge) (k : String × String) : Option (ℤ × ℤ) :=
  ((edges.filter (fun e => e.u = k.1 ∧ e.v = k.2)).getLast?).map (fun e => (e.cap, e.time))

def capOf (edges : List NEdge) (k : String × String) : ℤ :=
  ((edgeDictLookup edges k).getD (0, 0)).1

def timeOf (edges : List NEdge) (k : String × String) : ℤ :=
  ((edgeDictLookup edges k).getD (0, 0)).2

/-- The node set: source names, sinks, and both endpoints of every edge
(Python builds a `set`; `dedup` keeps one occurrence of each). -/
def nourNodes (sources : List (String × ℤ)) (sinks : List String)
    (edges : List NEdge) : List String :=
  ((sources.map (fun p => p.1)) ++ sinks ++ edges.map (fun e => e.u) ++
    edges.map (fun e => e.v)).dedup

/-- `sources[n]` (dict lookup; sources is the input dict as an association
list, last occurrence of a key winning). -/
def sourceLookup (sources : List (String × ℤ)) (n : String) : ℤ :=
  (((sources.filter (fun p => p.1 = n)).getLast?).map (fun p => p.2)).getD 0

def outFlowSum (edges : List NEdge) (x : String × String → ℤ) (n : String) : ℤ :=
  ((edgesOutOf edges n).map (fun e => x (e.u, e.v))).sum

def inFlowSum (edges : List NEdge) (x : String × String → ℤ) (n : String) : ℤ :=
  ((edgesInto edges n).map (fun e => x (e.u, e.v))).sum

/-- BFS collecting `relevant_edges` for a sink (solver_nour.py lines
108-119): pop the queue front; if unseen, record every in-edge of the popped
node and enqueue its unseen tails.  Each queue element is popped once and
every push is tied to an in-edge scan of a newly visited node, so the number
of loop iterations is at most `edges.length + 2`; that is the fuel. -/
def relevantAux (edges : List NEdge) :
    ℕ → List String → List String → List (String × String) → List (String × String)
  | 0, _, _, acc => acc
  | _ + 1, [], _, acc => acc
  | fuel + 1, cur :: rest, visited, acc =>
    if cur ∈ visited then relevantAux edges fuel rest visited acc
    else
      let visited' := visited ++ [cur]
      let ins := edgesInto edges cur
      let acc' := acc ++ ins.map (fun e => (e.u, e.v))
      let newQueue := rest ++ (ins.filter (fun e => decide (e.u ∉ visited'))).map (fun e => e.u)
      relevantAux edges fuel newQueue visited' acc'

/-- The `relevant_edges` list computed for `sink`. -/
def relevantEdges (edges : List NEdge) (sink : String) : List (String × String) :=
  relevantAux edges (edges.length + 2) [sink] [] []

/-- Feasibility for the evacuation model of `EvacuationSolver.solve`:
variable bounds (`x` integer in [0, cap], `y` binary, `t`/`t_max`
nonnegative), the per-node source / min-source / conservation constraints,
the `link_*` constraints `x ≤ cap·y`, the `time_*` constraints over the
relevant edges of each sink, and the `tmax_*` / `max_time_constraint`
aggregation. -/
def EvacuationFeasible (sources : List (String × ℤ)) (sinks : List String)
    (edges : List NEdge) (max_time : ℤ) (x y : String × String → ℤ)
    (t : String → ℤ) (tmax : ℤ) : Prop :=
  (∀ e ∈ edges, 0 ≤ x (e.u, e.v) ∧ x (e.u, e.v) ≤ capOf edges (e.u, e.v)) ∧
  (∀ e ∈ edges, y (e.u, e.v) = 0 ∨ y (e.u, e.v) = 1) ∧
  (∀ s ∈ sinks, 0 ≤ t s) ∧ 0 ≤ tmax ∧
  (∀ n ∈ nourNodes sources sinks edges,
    (n ∈ sources.map (fun p => p.1) →
      outFlowSum edges x n - inFlowSum edges x n ≤ sourceLookup sources n ∧
      1 ≤ outFlowSum edges x n) ∧
    (n ∉ sources.map (fun p => p.1) → n ∉ sinks →
      outFlowSum edges x n = inFlowSum edges x n)) ∧
  (∀ e ∈ edges, x (e.u, e.v) ≤ capOf edges (e.u, e.v) * y (e.u, e.v)) ∧
  (∀ s ∈ sinks, ∀ p ∈ relevantEdges edges s, timeOf edges p * y p ≤ t s) ∧
  (∀ s ∈ sinks, t s ≤ tmax) ∧ tmax ≤ max_time

/-- `total_flow_expr`: the sum of the flows on all edges entering a sink
(lines 135-137). -/
def totalFlowExpr (sinks : List String) (edges : List NEdge)
    (x : String × String → ℤ) : ℤ :=
  (sinks.map (fun s => inFlowSum edges x s)).sum

/-- The objective expression `EvacuationSolver.solve` hands to
`setObjective` (lines 143-146): `alpha * total_flow_expr - (1-alpha) * t_max`.
The normaliser `max_possible_flow = sum(sources.values())` computed on line
140 does not appear in it. -/
def evacuationObjective (alpha : ℚ) (sinks : List String) (edges : List NEdge)
    (x : String × String → ℤ) (tmax : ℤ) : ℚ :=
  alpha * ((totalFlowExpr sinks edges x : ℤ) : ℚ) - (1 - alpha) * ((tmax : ℤ) : ℚ)

/-- Modelled from the spec: the objective the specification prescribes for
the evacuation trade-off, `α·(flow/total_supply) − (1−α)·t_max`, stated for
comparison with `evacuationObjective`. -/
def evacuationObjectiveSpecForm (alpha : ℚ) (sources : List (String × ℤ))
    (sinks : List String) (edges : List NEdge) (x : String × String → ℤ)
    (tmax : ℤ) : ℚ :=
  alpha * (((totalFlowExpr sinks edges x : ℤ) : ℚ) / (((sources.map (fun p => p.2)).sum : ℤ) : ℚ)) -
    (1 - alpha) * ((tmax : ℤ) : ℚ)

/-- The status string carried by the dictionary `EvacuationSolver.solve`
returns: both OPTIMAL (2) and SUBOPTIMAL (13) produce the `'optimal'` result
dictionary (line 151 and 195), INFEASIBLE (3) produces `'infeasible'`, every
other status (and any caught exception) produces `'error'`. -/
def evacuationResultStatus (st : ℕ) : String :=
  if st = 2 ∨ st = 13 then "optimal"
  else if st = 3 then "infeasible"
  else "error"

/-! ## Solver_mariem.py: NetworkOptimizer -/

/-- One edge of the routing network: `(source, dest, capacity, cost, latency)`. -/
structure MEdge where
  src : ℕ
  dst : ℕ
  capacity : ℚ
  cost : ℚ
  latency : ℚ

/-- `self.edge_dict[(i,j)]` (dict: last occurrence of a key wins). -/
def medgeLookup (edges : List MEdge) (k : ℕ × ℕ) : Option MEdge :=
  (edges.filter (fun e => e.src = k.1 ∧ e.dst = k.2)).getLast?

def mcap (edges : List MEdge) (k : ℕ × ℕ) : ℚ :=
  ((medgeLookup edges k).map (fun e => e.capacity)).getD 0

def mcost (edges : List MEdge) (k : ℕ × ℕ) : ℚ :=
  ((medgeLookup edges k).map (fun e => e.cost)).getD 0

def mlat (edges : List MEdge) (k : ℕ × ℕ) : ℚ :=
  ((medgeLookup edges k).map (fun e => e.latency)).getD 0

def mInflow (edges : List MEdge) (flow : ℕ × ℕ → ℚ) (n : ℕ) : ℚ :=
  ((edges.filter (fun e => e.dst = n)).map (fun e => flow (e.src, e.dst))).sum

def mOutflow (edges : List MEdge) (flow : ℕ × ℕ → ℚ) (n : ℕ) : ℚ :=
  ((edges.filter (fun e => e.src = n)).map (fun e => flow (e.src, e.dst))).sum

/-- Feasibility for the routing model of `NetworkOptimizer.build_model`:
variable bounds (`flow` in [0, capacity], `used` binary), the
`flow_balance_*` constraints (source = node 0, destination = node
num_nodes-1), the `capacity_*` constraints, the `link_activation_*`
constraints `flow ≤ capacity·used`, and the optional `reliability_*`
(flow ≤ 0.8·demand) and `balance_*` (flow ≤ 0.7·capacity) families. -/
def NetworkFeasible (numNodes : ℕ) (edges : List MEdge) (demand : ℚ)
    (useReliability useBalance : Bool) (flow used : ℕ × ℕ → ℚ) : Prop :=
  (∀ e ∈ edges, 0 ≤ flow (e.src, e.dst) ∧ flow (e.src, e.dst) ≤ mcap edges (e.src, e.dst)) ∧
  (∀ e ∈ edges, used (e.src, e.dst) = 0 ∨ used (e.src, e.dst) = 1) ∧
  (∀ n ∈ List.range numNodes,
    (n = 0 → mOutflow edges flow n - mInflow edges flow n = demand) ∧
    (n ≠ 0 → n = numNodes - 1 → mInflow edges flow n - mOutflow edges flow n = demand) ∧
    (n ≠ 0 → n ≠ numNodes - 1 → mInflow edges flow n = mOutflow edges flow n)) ∧
  (∀ e ∈ edges, flow (e.src, e.dst) ≤ mcap edges (e.src, e.dst)) ∧
  (∀ e ∈ edges, flow (e.src, e.dst) ≤ mcap edges (e.src, e.dst) * used (e.src, e.dst)) ∧
  (useReliability = true → ∀ e ∈ edges, flow (e.src, e.dst) ≤ 4/5 * demand) ∧
  (useBalance = true → ∀ e ∈ edges, flow (e.src, e.dst) ≤ 7/10 * mcap edges (e.src, e.dst))

/-- The 0.01 activity threshold, as the rational 1/100 in kernel-normal
form. -/
def EPSQ : ℚ := ⟨1, 100, by decide, by decide⟩

/-- `find_main_paths`' recursive `dfs_path`, embedded with Python's
call-by-reference mutation made explicit.  The scan of `flows.keys()` at one
node threads `vis`/`path` through the iterations because `visited.add(j)`
and `path.append(j)` mutate the caller's objects before `.copy()` is taken
for the recursive call; the recursive descent receives copies, so its
mutations do not flow back.  The check `node == destination` of the Python
function entry appears here at the moment of descent (and once at top level
in `find_main_paths`), which is the same evaluation order.  `fuel` bounds
the recursion depth; each descent adds a previously unvisited node to `vis`,
so depth never exceeds the number of distinct edge targets plus one and the
fuel chosen in `find_main_paths` is never exhausted.  Emitted entries are
`(path, flux)` pairs; the source renders them as
`f"Chemin: {...} | Flux: {flow:.2f}"` strings, a formatting step not
modelled. -/
def dfsScan (flows : List ((ℕ × ℕ) × ℚ)) (dst : ℕ) :
    ℕ → List ((ℕ × ℕ) × ℚ) → ℕ → List ℕ → List ℕ → ℚ → List (List ℕ × ℚ)
  | _, [], _, _, _, _ => []
  | fuel, ((i, j), f) :: rest, node, vis, path, rem =>
    if i = node ∧ j ∉ vis ∧ EPSQ < f then
      let vis' := vis ++ [j]
      let path' := path ++ [j]
      let rem' := min rem f
      let sub := if j = dst ∧ EPSQ < rem' then [(path', rem')]
        else match fuel with
          | 0 => []
          | fuel' + 1 => dfsScan flows dst fuel' flows j vis' path' rem'
      sub ++ dfsScan flows dst fuel rest node vis' path' rem
    else dfsScan flows dst fuel rest node vis path rem
termination_by fuel toScan _ _ _ _ => (fuel, toScan.length)

/-- `NetworkOptimizer.find_main_paths`: depth-first enumeration started at
`dfs_path(source, {source}, [source], demand)`, capped by `paths[:5]`. -/
def find_main_paths (flows : List ((ℕ × ℕ) × ℚ)) (src dst : ℕ) (demand : ℚ) :
    List (List ℕ × ℚ) :=
  (if src = dst ∧ EPSQ < demand then [([src], demand)]
   else dfsScan flows dst (flows.length + 1) flows src [src] [src] demand).take 5

/-- Modelled from the spec: what §4.6 describes a reported path to be — a
node sequence from the source to the destination, without repetition, whose
consecutive pairs are edges carrying thresholded-positive flow.  Stated for
comparison with the paths `find_main_paths` actually emits. -/
def specFlowPath (flows : List ((ℕ × ℕ) × ℚ)) (src dst : ℕ) (p : List ℕ) : Prop :=
  p.head? = some src ∧ p.getLast? = some dst ∧ p.Nodup ∧
    p.Chain' (fun a b => ∃ f, ((a, b), f) ∈ flows ∧ EPSQ < f)

/-- The metric block of `NetworkOptimizer.solve` (lines 236-266). -/
structure MariemMetrics where
  total_cost : ℚ
  avg_latency : ℚ
  active_links : ℕ
  total_flow : ℚ
  avg_utilization : ℚ
  total_capacity : ℚ
  total_capacity_used : ℚ
  main_paths : List (List ℕ × ℚ)

/-- The derived-metric computation of `NetworkOptimizer.solve` on a flow
map: cost is summed over all entries, latency only over entries above the
0.01 threshold, `total_flow` is the sum of all entries (not only the active
ones), and both divisions fall back to 0 on a nonpositive denominator. -/
def computeMetrics (edges : List MEdge) (flows : List ((ℕ × ℕ) × ℚ))
    (src dst : ℕ) (demand : ℚ) : MariemMetrics :=
  let total_cost := (flows.map (fun p => p.2 * mcost edges p.1)).sum
  let total_latency := ((flows.filter (fun p => decide (EPSQ < p.2))).map
    (fun p => p.2 * mlat edges p.1)).sum
  let active_flows := (flows.filter (fun p => decide (EPSQ < p.2))).length
  let total_flow := (flows.map (fun p => p.2)).sum
  let avg_latency := if 0 < total_flow then total_latency / total_flow else 0
  let total_capacity := (edges.map (fun e => e.capacity)).sum
  let total_capacity_used := (flows.map (fun p => p.2)).sum
  let avg_utilization := if 0 < total_capacity then total_capacity_used / total_capacity else 0
  ⟨total_cost, avg_latency, active_flows, total_flow, avg_utilization,
    total_capacity, total_capacity_used, find_main_paths flows src dst demand⟩

/-- Modelled from the spec: the average latency §4.5/C7 describes — the
flow-weighted latency sum divided by the total *active* flow (the flow above
the 0.01 epsilon), 0 when that total is 0.  Stated for comparison with the
`avg_latency` field of `computeMetrics`. -/
def avgLatencySpecForm (edges : List MEdge) (flows : List ((ℕ × ℕ) × ℚ)) : ℚ :=
  let active := flows.filter (fun p => decide (EPSQ < p.2))
  let activeFlow := (active.map (fun p => p.2)).sum
  if 0 < activeFlow then ((active.map (fun p => p.2 * mlat edges p.1)).sum) / activeFlow else 0

/-- `NetworkOptimizer.get_status_string`. -/
def mariemStatusString (st : ℕ) : String :=
  if st = 2 then "optimal"
  else if st = 3 then "infeasible"
  else if st = 4 then "inf_or_unbounded"
  else if st = 5 then "unbounded"
  else if st = 6 then "cutoff"
  else if st = 7 then "iteration_limit"
  else if st = 8 then "node_limit"
  else if st = 9 then "time_limit"
  else if st = 10 then "solution_limit"
  else if st = 11 then "interrupted"
  else if st = 12 then "numeric"
  else if st = 13 then "suboptimal"
  else "unknown"

/-- The result dictionary of `NetworkOptimizer.solve` (minus `solve_time`):
flows and metrics are present only in the `Status == GRB.OPTIMAL` branch;
every other status gets only the status string and the apology message. -/
structure MariemResult where
  status : String
  flows : Option (List ((ℕ × ℕ) × ℚ))
  metrics : Option MariemMetrics
  message : Option String

/-- Post-`optimize` part of `NetworkOptimizer.solve` (lines 222-271), with
the solver status and the incumbent variable values as inputs. -/
def NetworkOptimizer_solve (st : ℕ) (edges : List MEdge) (flowVals : ℕ × ℕ → ℚ)
    (numNodes : ℕ) (demand : ℚ) : MariemResult :=
  if st = 2 then
    let flows := edges.map (fun e => ((e.src, e.dst), flowVals (e.src, e.dst)))
    ⟨mariemStatusString st, some flows,
      some (computeMetrics edges flows 0 (numNodes - 1) demand), none⟩
  else
    ⟨mariemStatusString st, none, none,
      some "Aucune solution optimale trouvée. Vérifiez les contraintes."⟩

/-! ## String lemmas -/

theorem data_append (s t : String) : (s ++ t).data = s.data ++ t.data := rfl

theorem pySplitAux_length_pos (l acc : List Char) : 1 ≤ (pySplitAux l acc).length := by
  induction l generalizing acc with
  | nil => simp [pySplitAux]
  | cons c cs ih => simp only [pySplitAux]; split <;> simp [ih]

theorem pySplitAux_append_sep (xs ys acc : List Char) :
    (pySplitAux (xs ++ '_' :: ys) acc).length =
      (pySplitAux xs acc).length + (pySplitAux ys []).length := by
  induction xs generalizing acc with
  | nil => simp [pySplitAux]; omega
  | cons c cs ih =>
    simp only [List.cons_append, pySplitAux]
    split
    · simp [ih]; omega
    · simp [ih]

/-- A string whose first four characters are not C,o,n,t is not the generic
fallback message (which starts with "Cont"). -/
theorem ne_generic_head (c1 c2 c3 c4 : Char) (rest : List Char) (name : String)
    (h : ¬(c1 = 'C' ∧ c2 = 'o' ∧ c3 = 'n' ∧ c4 = 't')) :
    String.mk (c1 :: c2 :: c3 :: c4 :: rest) ≠ genericMsg name := by
  intro he
  have hd : c1 :: c2 :: c3 :: c4 :: rest =
      'C' :: 'o' :: 'n' :: 't' :: ("rainte en conflit: ".data ++ name.data) :=
    congrArg String.data he
  simp only [List.cons.injEq] at hd
  exact h ⟨hd.1, hd.2.1, hd.2.2.1, hd.2.2.2.1⟩

/-! ## explainCore branch equations -/

theorem explainCore_cover_eq (name : String) (parts : List String)
    (h1 : pyStartsWith name "cover_" = true) (hl : 4 ≤ parts.length) :
    explainCore name parts =
      "Sous-effectif: manque compétence \x27" ++ parts.getD 3 "" ++ "\x27 pour le créneau " ++
        parts.getD 1 "" ++ "_" ++ parts.getD 2 "" ++ "." := by
  unfold explainCore
  rw [h1]
  simp [hl]

theorem explainCore_unavailable_eq (name : String) (parts : List String)
    (h0 : pyStartsWith name "cover_" = false)
    (h1 : pyStartsWith name "unavailable_" = true) (hl : 4 ≤ parts.length) :
    explainCore name parts = "Indispo: " ++ parts.getD 1 "" ++ " n\x27est pas disponible " ++
      parts.getD 2 "" ++ " (" ++ parts.getD 3 "" ++ ")." := by
  unfold explainCore
  rw [h0, h1]
  simp [hl]

theorem explainCore_onePerDay_eq (name : String) (parts : List String)
    (h0 : pyStartsWith name "cover_" = false)
    (h1 : pyStartsWith name "unavailable_" = false)
    (h2 : pyStartsWith name "one_per_day_" = true) (hl : 3 ≤ parts.length) :
    explainCore name parts =
      "Conflit: " ++ parts.getD 1 "" ++ " doit avoir ≤1 shift le jour " ++
        parts.getD 2 "" ++ "." := by
  unfold explainCore
  rw [h0, h1, h2]
  simp [hl]

theorem explainCore_rest_eq (name : String) (parts : List String)
    (h0 : pyStartsWith name "cover_" = false)
    (h1 : pyStartsWith name "unavailable_" = false)
    (h2 : pyStartsWith name "one_per_day_" = false)
    (h3 : pyStartsWith name "rest_guard_matin_" = true) (hl : 6 ≤ parts.length) :
    explainCore name parts =
      "Repos insuffisant: " ++ parts.getD 3 "" ++ " garde le " ++ parts.getD 4 "" ++
        " empêche le day suivant." := by
  unfold explainCore
  rw [h0, h1, h2, h3]
  simp [hl]

theorem explainCore_spacing_eq (name : String) (parts : List String)
    (h0 : pyStartsWith name "cover_" = false)
    (h1 : pyStartsWith name "unavailable_" = false)
    (h2 : pyStartsWith name "one_per_day_" = false)
    (h3 : pyStartsWith name "rest_guard_matin_" = false)
    (h4 : pyStartsWith name "spacing_garde_" = true) (hl : 5 ≤ parts.length) :
    explainCore name parts =
      "Spacing gardes: " ++ parts.getD 2 "" ++ " ne peut pas avoir gardes proches (" ++
        parts.getD 3 "" ++ ", " ++ (parts.drop 5).getLastD (parts.getD 4 "") ++ ")." := by
  unfold explainCore
  rw [h0, h1, h2, h3, h4]
  simp [hl]

theorem explainCore_maxMatin_eq (name : String) (parts : List String)
    (h0 : pyStartsWith name "cover_" = false)
    (h1 : pyStartsWith name "unavailable_" = false)
    (h2 : pyStartsWith name "one_per_day_" = false)
    (h3 : pyStartsWith name "rest_guard_matin_" = false)
    (h4 : pyStartsWith name "spacing_garde_" = false)
    (h5 : pyStartsWith name "max_matin_seq_" = true) (hl : 5 ≤ parts.length) :
    explainCore name parts =
      "Max Matin: trop de Matin consécutifs pour " ++ parts.getD 2 "" ++ " (" ++
        parts.getD 3 "" ++ " à " ++ (parts.drop 5).getLastD (parts.getD 4 "") ++ ")." := by
  unfold explainCore
  rw [h0, h1, h2, h3, h4, h5]
  simp [hl]

theorem explainCore_minTotal_eq (name : String) (parts : List String)
    (h0 : pyStartsWith name "cover_" = false)
    (h1 : pyStartsWith name "unavailable_" = false)
    (h2 : pyStartsWith name "one_per_day_" = false)
    (h3 : pyStartsWith name "rest_guard_matin_" = false)
    (h4 : pyStartsWith name "spacing_garde_" = false)
    (h5 : pyStartsWith name "max_matin_seq_" = false)
    (h6 : pyStartsWith name "min_total_" = true) (hl : 2 ≤ parts.length) :
    explainCore name parts = "Min shifts impossible pour " ++ parts.getD 1 "" ++ "." := by
  unfold explainCore
  rw [h0, h1, h2, h3, h4, h5, h6]
  simp [hl]

theorem explainCore_maxTotal_eq (name : String) (parts : List String)
    (h0 : pyStartsWith name "cover_" = false)
    (h1 : pyStartsWith name "unavailable_" = false)
    (h2 : pyStartsWith name "one_per_day_" = false)
    (h3 : pyStartsWith name "rest_guard_matin_" = false)
    (h4 : pyStartsWith name "spacing_garde_" = false)
    (h5 : pyStartsWith name "max_matin_seq_" = false)
    (h6 : pyStartsWith name "min_total_" = false)
    (h7 : pyStartsWith name "max_total_" = true) (hl : 2 ≤ parts.length) :
    explainCore name parts = "Max shifts violée pour " ++ parts.getD 1 "" ++ "." := by
  unfold explainCore
  rw [h0, h1, h2, h3, h4, h5, h6, h7]
  simp [hl]

/-! ## Per-format diagnoser lemmas (arbitrary entity/day/shift strings) -/

theorem cover_msg_ne (d s k : String) :
    explain_one (coverName d s k) ≠ genericMsg (coverName d s k) := by
  have htail : (((d.data ++ ['_']) ++ s.data) ++ ['_']) ++ k.data =
      d.data ++ '_' :: (s.data ++ '_' :: k.data) := by
    simp [List.append_assoc]
  have hsplit : pySplit (coverName d s k) =
      "cover" :: pySplitAux ((((d.data ++ ['_']) ++ s.data) ++ ['_']) ++ k.data) [] := rfl
  rw [htail] at hsplit
  have h1 : pyStartsWith (coverName d s k) "cover_" = true := rfl
  have hlen : 4 ≤ (pySplit (coverName d s k)).length := by
    rw [hsplit]
    have l1 := pySplitAux_append_sep d.data (s.data ++ '_' :: k.data) []
    have l2 := pySplitAux_append_sep s.data k.data []
    have p1 := pySplitAux_length_pos d.data []
    have p2 := pySplitAux_length_pos s.data []
    have p3 := pySplitAux_length_pos k.data []
    simp only [List.length_cons]
    omega
  unfold explain_one
  rw [explainCore_cover_eq _ _ h1 hlen]
  exact ne_generic_head _ _ _ _ _ _ (by decide)

theorem unavailable_msg_ne (e d s : String) :
    explain_one (unavailableName e d s) ≠ genericMsg (unavailableName e d s) := by
  have htail : (((e.data ++ ['_']) ++ d.data) ++ ['_']) ++ s.data =
      e.data ++ '_' :: (d.data ++ '_' :: s.data) := by
    simp [List.append_assoc]
  have hsplit : pySplit (unavailableName e d s) =
      "unavailable" :: pySplitAux ((((e.data ++ ['_']) ++ d.data) ++ ['_']) ++ s.data) [] := rfl
  rw [htail] at hsplit
  have h0 : pyStartsWith (unavailableName e d s) "cover_" = false := rfl
  have h1 : pyStartsWith (unavailableName e d s) "unavailable_" = true := rfl
  have hlen : 4 ≤ (pySplit (unavailableName e d s)).length := by
    rw [hsplit]
    have l1 := pySplitAux_append_sep e.data (d.data ++ '_' :: s.data) []
    have l2 := pySplitAux_append_sep d.data s.data []
    have p1 := pySplitAux_length_pos e.data []
    have p2 := pySplitAux_length_pos d.data []
    have p3 := pySplitAux_length_pos s.data []
    simp only [List.length_cons]
    omega
  unfold explain_one
  rw [explainCore_unavailable_eq _ _ h0 h1 hlen]
  exact ne_generic_head _ _ _ _ _ _ (by decide)

theorem onePerDay_msg_ne (e d : String) :
    explain_one (onePerDayName e d) ≠ genericMsg (onePerDayName e d) := by
  have hsplit : pySplit (onePerDayName e d) =
      "one" :: "per" :: "day" :: pySplitAux ((e.data ++ ['_']) ++ d.data) [] := rfl
  have h0 : pyStartsWith (onePerDayName e d) "cover_" = false := rfl
  have h1 : pyStartsWith (onePerDayName e d) "unavailable_" = false := rfl
  have h2 : pyStartsWith (onePerDayName e d) "one_per_day_" = true := rfl
  have hlen : 3 ≤ (pySplit (onePerDayName e d)).length := by
    rw [hsplit]
    simp only [List.length_cons]
    omega
  unfold explain_one
  rw [explainCore_onePerDay_eq _ _ h0 h1 h2 hlen]
  exact ne_generic_head _ _ _ _ _ _ (by decide)

theorem rest_msg_ne (e d0 d1 : String) :
    explain_one (restGuardMatinName e d0 d1) ≠ genericMsg (restGuardMatinName e d0 d1) := by
  have htail : (((e.data ++ ['_']) ++ d0.data) ++ ['_']) ++ d1.data =
      e.data ++ '_' :: (d0.data ++ '_' :: d1.data) := by
    simp [List.append_assoc]
  have hsplit : pySplit (restGuardMatinName e d0 d1) =
      "rest" :: "guard" :: "matin" ::
        pySplitAux ((((e.data ++ ['_']) ++ d0.data) ++ ['_']) ++ d1.data) [] := rfl
  rw [htail] at hsplit
  have h0 : pyStartsWith (restGuardMatinName e d0 d1) "cover_" = false := rfl
  have h1 : pyStartsWith (restGuardMatinName e d0 d1) "unavailable_" = false := rfl
  have h2 : pyStartsWith (restGuardMatinName e d0 d1) "one_per_day_" = false := rfl
  have h3 : pyStartsWith (restGuardMatinName e d0 d1) "rest_guard_matin_" = true := rfl
  have hlen : 6 ≤ (pySplit (restGuardMatinName e d0 d1)).length := by
    rw [hsplit]
    have l1 := pySplitAux_append_sep e.data (d0.data ++ '_' :: d1.data) []
    have l2 := pySplitAux_append_sep d0.data d1.data []
    have p1 := pySplitAux_length_pos e.data []
    have p2 := pySplitAux_length_pos d0.data []
    have p3 := pySplitAux_length_pos d1.data []
    simp only [List.length_cons]
    omega
  unfold explain_one
  rw [explainCore_rest_eq _ _ h0 h1 h2 h3 hlen]
  exact ne_generic_head _ _ _ _ _ _ (by decide)

theorem spacing_msg_ne (e da db dc : String) :
    explain_one (spacingGardeName e [da, db, dc]) ≠
      genericMsg (spacingGardeName e [da, db, dc]) := by
  have htail : (e.data ++ ['_']) ++ ((((da.data ++ ['_']) ++ db.data) ++ ['_']) ++ dc.data) =
      e.data ++ '_' :: (da.data ++ '_' :: (db.data ++ '_' :: dc.data)) := by
    simp [List.append_assoc]
  have hsplit : pySplit (spacingGardeName e [da, db, dc]) =
      "spacing" :: "garde" ::
        pySplitAux ((e.data ++ ['_']) ++
          ((((da.data ++ ['_']) ++ db.data) ++ ['_']) ++ dc.data)) [] := rfl
  rw [htail] at hsplit
  have h0 : pyStartsWith (spacingGardeName e [da, db, dc]) "cover_" = false := rfl
  have h1 : pyStartsWith (spacingGardeName e [da, db, dc]) "unavailable_" = false := rfl
  have h2 : pyStartsWith (spacingGardeName e [da, db, dc]) "one_per_day_" = false := rfl
  have h3 : pyStartsWith (spacingGardeName e [da, db, dc]) "rest_guard_matin_" = false := rfl
  have h4 : pyStartsWith (spacingGardeName e [da, db, dc]) "spacing_garde_" = true := rfl
  have hlen : 5 ≤ (pySplit (spacingGardeName e [da, db, dc])).length := by
    rw [hsplit]
    have l1 := pySplitAux_append_sep e.data (da.data ++ '_' :: (db.data ++ '_' :: dc.data)) []
    have l2 := pySplitAux_append_sep da.data (db.data ++ '_' :: dc.data) []
    have p1 := pySplitAux_length_pos e.data []
    have p2 := pySplitAux_length_pos da.data []
    have p3 := pySplitAux_length_pos (db.data ++ '_' :: dc.data) []
    simp only [List.length_cons]
    omega
  unfold explain_one
  rw [explainCore_spacing_eq _ _ h0 h1 h2 h3 h4 hlen]
  exact ne_generic_head _ _ _ _ _ _ (by decide)

theorem maxMatin_msg_ne (e w1 w2 w3 w4 w5 w6 : String) :
    explain_one (maxMatinSeqName e [w1, w2, w3, w4, w5, w6]) ≠
      genericMsg (maxMatinSeqName e [w1, w2, w3, w4, w5, w6]) := by
  have htail : (e.data ++ ['_']) ++
      ((((((((((w1.data ++ ['_']) ++ w2.data) ++ ['_']) ++ w3.data) ++ ['_']) ++ w4.data)
        ++ ['_']) ++ w5.data) ++ ['_']) ++ w6.data) =
      e.data ++ '_' :: (w1.data ++ '_' :: (w2.data ++ '_' :: (w3.data ++ '_' ::
        (w4.data ++ '_' :: (w5.data ++ '_' :: w6.data))))) := by
    simp [List.append_assoc]
  have hsplit : pySplit (maxMatinSeqName e [w1, w2, w3, w4, w5, w6]) =
      "max" :: "matin" :: "seq" ::
        pySplitAux ((e.data ++ ['_']) ++
          ((((((((((w1.data ++ ['_']) ++ w2.data) ++ ['_']) ++ w3.data) ++ ['_']) ++ w4.data)
            ++ ['_']) ++ w5.data) ++ ['_']) ++ w6.data)) [] := rfl
  rw [htail] at hsplit
  have h0 : pyStartsWith (maxMatinSeqName e [w1, w2, w3, w4, w5, w6]) "cover_" = false := rfl
  have h1 : pyStartsWith (maxMatinSeqName e [w1, w2, w3, w4, w5, w6]) "unavailable_" = false := rfl
  have h2 : pyStartsWith (maxMatinSeqName e [w1, w2, w3, w4, w5, w6]) "one_per_day_" = false := rfl
  have h3 : pyStartsWith (maxMatinSeqName e [w1, w2, w3, w4, w5, w6]) "rest_guard_matin_" = false :=
    rfl
  have h4 : pyStartsWith (maxMatinSeqName e [w1, w2, w3, w4, w5, w6]) "spacing_garde_" = false :=
    rfl
  have h5 : pyStartsWith (maxMatinSeqName e [w1, w2, w3, w4, w5, w6]) "max_matin_seq_" = true := rfl
  have hlen : 5 ≤ (pySplit (maxMatinSeqName e [w1, w2, w3, w4, w5, w6])).length := by
    rw [hsplit]
    have l1 := pySplitAux_append_sep e.data (w1.data ++ '_' :: (w2.data ++ '_' :: (w3.data ++
      '_' :: (w4.data ++ '_' :: (w5.data ++ '_' :: w6.data))))) []
    have p1 := pySplitAux_length_pos e.data []
    have p2 := pySplitAux_length_pos (w1.data ++ '_' :: (w2.data ++ '_' :: (w3.data ++ '_' ::
      (w4.data ++ '_' :: (w5.data ++ '_' :: w6.data))))) []
    simp only [List.length_cons]
    omega
  unfold explain_one
  rw [explainCore_maxMatin_eq _ _ h0 h1 h2 h3 h4 h5 hlen]
  exact ne_generic_head _ _ _ _ _ _ (by decide)

theorem minTotal_msg_ne (e : String) :
    explain_one (minTotalName e) ≠ genericMsg (minTotalName e) := by
  have hsplit : pySplit (minTotalName e) = "min" :: "total" :: pySplitAux e.data [] := rfl
  have h0 : pyStartsWith (minTotalName e) "cover_" = false := rfl
  have h1 : pyStartsWith (minTotalName e) "unavailable_" = false := rfl
  have h2 : pyStartsWith (minTotalName e) "one_per_day_" = false := rfl
  have h3 : pyStartsWith (minTotalName e) "rest_guard_matin_" = false := rfl
  have h4 : pyStartsWith (minTotalName e) "spacing_garde_" = false := rfl
  have h5 : pyStartsWith (minTotalName e) "max_matin_seq_" = false := rfl
  have h6 : pyStartsWith (minTotalName e) "min_total_" = true := rfl
  have hlen : 2 ≤ (pySplit (minTotalName e)).length := by
    rw [hsplit]
    simp only [List.length_cons]
    omega
  unfold explain_one
  rw [explainCore_minTotal_eq _ _ h0 h1 h2 h3 h4 h5 h6 hlen]
  exact ne_generic_head _ _ _ _ _ _ (by decide)

theorem maxTotal_msg_ne (e : String) :
    explain_one (maxTotalName e) ≠ genericMsg (maxTotalName e) := by
  have hsplit : pySplit (maxTotalName e) = "max" :: "total" :: pySplitAux e.data [] := rfl
  have h0 : pyStartsWith (maxTotalName e) "cover_" = false := rfl
  have h1 : pyStartsWith (maxTotalName e) "unavailable_" = false := rfl
  have h2 : pyStartsWith (maxTotalName e) "one_per_day_" = false := rfl
  have h3 : pyStartsWith (maxTotalName e) "rest_guard_matin_" = false := rfl
  have h4 : pyStartsWith (maxTotalName e) "spacing_garde_" = false := rfl
  have h5 : pyStartsWith (maxTotalName e) "max_matin_seq_" = false := rfl
  have h6 : pyStartsWith (maxTotalName e) "min_total_" = false := rfl
  have h7 : pyStartsWith (maxTotalName e) "max_total_" = true := rfl
  have hlen : 2 ≤ (pySplit (maxTotalName e)).length := by
    rw [hsplit]
    simp only [List.length_cons]
    omega
  unfold explain_one
  rw [explainCore_maxTotal_eq _ _ h0 h1 h2 h3 h4 h5 h6 h7 hlen]
  exact ne_generic_head _ _ _ _ _ _ (by decide)

theorem link_msg_generic (e d s : String) :
    explain_one (linkName e d s) = genericMsg (linkName e d s) := rfl

/-! ## Claim C2 -/

set_option maxRecDepth 10000 in
/-- C2 counterexample: the builder emits `link_I1_Lundi_Matin` (it is among
the constraint names `HiringScheduler.solve` creates for the default
candidate pool), and `explain_iis` maps it to the generic
"Contrainte en conflit" fallback — the diagnoser has no branch for the
`link_` format. -/
theorem link_name_hits_generic_fallback :
    linkName "I1" "Lundi" "Matin" ∈ hiringConstraintNames defaultIds defaultAvailability ∧
    explain_iis [linkName "I1" "Lundi" "Matin"] =
      [genericMsg (linkName "I1" "Lundi" "Matin")] := by
  exact ⟨by decide, rfl⟩

/-- C2 (amended): for every entity/day/shift/skill string, a builder-emitted
constraint name of the formats cover_*, unavailable_*, one_per_day_*,
rest_guard_matin_*, spacing_garde_* (3-day window), max_matin_seq_* (6-day
window), min_total_* and max_total_* is mapped by explain_iis to its
category-specific message, never the generic "conflicting constraint"
fallback; the builder-emitted link_* names, however, always fall through to
the generic fallback. -/
theorem explain_iis_builder_round_trip_amended :
    ∀ emp d s k d' da db dc w1 w2 w3 w4 w5 w6 : String,
      explain_one (coverName d s k) ≠ genericMsg (coverName d s k) ∧
      explain_one (unavailableName emp d s) ≠ genericMsg (unavailableName emp d s) ∧
      explain_one (onePerDayName emp d) ≠ genericMsg (onePerDayName emp d) ∧
      explain_one (restGuardMatinName emp d d') ≠ genericMsg (restGuardMatinName emp d d') ∧
      explain_one (spacingGardeName emp [da, db, dc]) ≠
        genericMsg (spacingGardeName emp [da, db, dc]) ∧
      explain_one (maxMatinSeqName emp [w1, w2, w3, w4, w5, w6]) ≠
        genericMsg (maxMatinSeqName emp [w1, w2, w3, w4, w5, w6]) ∧
      explain_one (minTotalName emp) ≠ genericMsg (minTotalName emp) ∧
      explain_one (maxTotalName emp) ≠ genericMsg (maxTotalName emp) ∧
      explain_one (linkName emp d s) = genericMsg (linkName emp d s) :=
  fun emp d s k d' da db dc w1 w2 w3 w4 w5 w6 =>
    ⟨cover_msg_ne d s k, unavailable_msg_ne emp d s, onePerDay_msg_ne emp d,
      rest_msg_ne emp d d', spacing_msg_ne emp da db dc,
      maxMatin_msg_ne emp w1 w2 w3 w4 w5 w6, minTotal_msg_ne emp, maxTotal_msg_ne emp,
      link_msg_generic emp d s⟩

/-! ## Claim C10 -/

/-- C10: the evacuation solver reports the status string "optimal" for both
the OPTIMAL (2) and the SUBOPTIMAL (13) solver outcomes, and no solver
outcome whatsoever can make its result carry the status "suboptimal". -/
theorem evacuation_status_collapses_suboptimal :
    (evacuationResultStatus 2 = "optimal" ∧ evacuationResultStatus 13 = "optimal") ∧
    ∀ st : ℕ, evacuationResultStatus st ≠ "suboptimal" := by
  refine ⟨⟨rfl, rfl⟩, ?_⟩
  intro st
  unfold evacuationResultStatus
  split
  · decide
  · split
    · decide
    · decide

/-! ## Claim C3 -/

/-- C3 counterexample: on solver status INFEASIBLE (3),
`optimize_military_schedule` does not return normally with a status value —
it raises `RuntimeError` (modelled as `Except.error`). -/
theorem military_dispatch_raises_on_infeasible :
    (optimize_military_dispatch 3 [] 0).isOk = false := rfl

/-- C3 (amended): the evacuation solver communicates every solver outcome as
a first-class status string ("optimal", "infeasible" or "error") in a
normally returned result, but `optimize_military_schedule` returns normally
exactly for the statuses OPTIMAL (2), TIME_LIMIT (9) and SUBOPTIMAL (13) —
for every other outcome, infeasible and unbounded included, it raises
`RuntimeError` instead of returning a status, and its normal return carries
no status field at all. -/
theorem nonoptimal_status_first_class_amended :
    (∀ st : ℕ, evacuationResultStatus st = "optimal" ∨
      evacuationResultStatus st = "infeasible" ∨ evacuationResultStatus st = "error") ∧
    (∀ (st : ℕ) (sched : List (String × Option ℤ)) (obj : ℚ),
      (optimize_military_dispatch st sched obj).isOk = true ↔ st = 2 ∨ st = 9 ∨ st = 13) := by
  constructor
  · intro st
    unfold evacuationResultStatus
    split
    · exact Or.inl rfl
    · split
      · exact Or.inr (Or.inl rfl)
      · exact Or.inr (Or.inr rfl)
  · intro st sched obj
    constructor
    · intro h
      by_contra hc
      rw [optimize_military_dispatch, if_neg hc] at h
      simp [Except.isOk, Except.toBool] at h
    · intro h
      rw [optimize_military_dispatch, if_pos h]
      rfl

/-! ## Claim C9 -/

/-- C9: when the solver reports INFEASIBLE (3) and `computeIIS` itself
raises (`iisComputed = none`), `HiringScheduler.solve` still returns
normally, with status "infeasible", an empty constraint subset and an empty
explanation list — the diagnostic failure never escalates to the caller. -/
theorem iis_failure_degrades_gracefully :
    ∀ (cands : List Candidate) (x : String → ℚ) (y : String × String × String → ℚ)
      (objVal : ℚ),
      HiringScheduler_solve 3 none cands x y objVal = ⟨"infeasible", some [], some [], none⟩ :=
  fun _ _ _ _ => rfl

/-! ## Claim C1 -/

/-- C1: on the instance with one source of supply 2, one sink, one edge of
capacity 2, weight α = 1/2 (α ∈ [0,1]), incumbent flow 2 and t_max 1, the
objective expression `EvacuationSolver.solve` hands to the optimizer
evaluates to 1/2 = α·flow − (1−α)·t_max, while the objective the
specification prescribes, α·(flow/total_supply) − (1−α)·t_max, evaluates
to 0: the code never divides the flow term by the total supply (the
`max_possible_flow` of line 140 is computed but unused, contradicting the
comment on line 142). -/
theorem evacuation_objective_unnormalized :
    evacuationObjective (1/2) ["B"] [⟨"A", "B", 2, 1⟩] (fun _ => 2) 1 = 1/2 ∧
    evacuationObjectiveSpecForm (1/2) [("A", 2)] ["B"] [⟨"A", "B", 2, 1⟩] (fun _ => 2) 1 = 0 ∧
    evacuationObjective (1/2) ["B"] [⟨"A", "B", 2, 1⟩] (fun _ => 2) 1 ≠
      evacuationObjectiveSpecForm (1/2) [("A", 2)] ["B"] [⟨"A", "B", 2, 1⟩] (fun _ => 2) 1 := by
  norm_num [evacuationObjective, evacuationObjectiveSpecForm, totalFlowExpr, inFlowSum,
    edgesInto]

/-! ## Claim C5 -/

/-- C5 counterexample: with demand 0 the all-zero assignment is feasible for
the routing model (so the optimizer can hold it as incumbent), yet on
status TIME_LIMIT (9) `NetworkOptimizer.solve` returns neither the flows
nor any derived metric — extraction runs only in the `GRB.OPTIMAL` branch. -/
theorem mariem_no_extraction_on_time_limit :
    NetworkFeasible 2 [⟨0, 1, 3, 1, 1⟩] 0 true true (fun _ => 0) (fun _ => 0) ∧
    (NetworkOptimizer_solve 9 [⟨0, 1, 3, 1, 1⟩] (fun _ => 0) 2 0).status = "time_limit" ∧
    (NetworkOptimizer_solve 9 [⟨0, 1, 3, 1, 1⟩] (fun _ => 0) 2 0).metrics = none ∧
    (NetworkOptimizer_solve 9 [⟨0, 1, 3, 1, 1⟩] (fun _ => 0) 2 0).flows = none := by
  refine ⟨?_, rfl, rfl, rfl⟩
  refine ⟨?_, ?_, ?_, ?_, ?_, ?_, ?_⟩ <;>
    norm_num [mcap, medgeLookup, mInflow, mOutflow, List.range]

/-- C5 (amended): `NetworkOptimizer.solve` performs its solution-extraction
step exactly when the status is OPTIMAL (2) — on time_limit or suboptimal
the result carries only the status string and a message; the hiring
scheduler, by contrast, does return status "time_limit" (9) or "suboptimal"
(13) together with the full extraction of the incumbent assignment. -/
theorem extraction_scope_amended :
    (∀ (st : ℕ) (edges : List MEdge) (fv : ℕ × ℕ → ℚ) (nn : ℕ) (dem : ℚ),
      (NetworkOptimizer_solve st edges fv nn dem).metrics.isSome = true ↔ st = 2) ∧
    (∀ (iisC : Option (List String)) (cands : List Candidate) (x : String → ℚ)
      (y : String × String × String → ℚ) (obj : ℚ),
      ((HiringScheduler_solve 9 iisC cands x y obj).status = "time_limit" ∧
        (HiringScheduler_solve 9 iisC cands x y obj).extraction =
          some (soniaExtract cands x y obj)) ∧
      ((HiringScheduler_solve 13 iisC cands x y obj).status = "suboptimal" ∧
        (HiringScheduler_solve 13 iisC cands x y obj).extraction =
          some (soniaExtract cands x y obj))) := by
  constructor
  · intro st edges fv nn dem
    unfold NetworkOptimizer_solve
    split
    · simpa using ‹st = 2›
    · simpa using ‹¬st = 2›
  · intro iisC cands x y obj
    exact ⟨⟨rfl, rfl⟩, ⟨rfl, rfl⟩⟩

/-! ## Claim C7 -/

theorem EPSQ_eq : EPSQ = 1 / 100 := by
  rw [show EPSQ = Rat.mk' 1 100 (by decide) (by decide) from rfl, Rat.mk'_eq_divInt,
    Rat.divInt_eq_div]
  norm_num

theorem computeMetrics_total_flow (edges : List MEdge) (flows : List ((ℕ × ℕ) × ℚ))
    (src dst : ℕ) (dem : ℚ) :
    (computeMetrics edges flows src dst dem).total_flow = (flows.map (fun p => p.2)).sum := rfl

theorem computeMetrics_avg_latency (edges : List MEdge) (flows : List ((ℕ × ℕ) × ℚ))
    (src dst : ℕ) (dem : ℚ) :
    (computeMetrics edges flows src dst dem).avg_latency =
      if 0 < (flows.map (fun p => p.2)).sum then
        ((flows.filter (fun p => decide (EPSQ < p.2))).map (fun p => p.2 * mlat edges p.1)).sum /
          (flows.map (fun p => p.2)).sum
      else 0 := rfl

theorem computeMetrics_total_capacity (edges : List MEdge) (flows : List ((ℕ × ℕ) × ℚ))
    (src dst : ℕ) (dem : ℚ) :
    (computeMetrics edges flows src dst dem).total_capacity =
      (edges.map (fun e => e.capacity)).sum := rfl

theorem computeMetrics_avg_utilization (edges : List MEdge) (flows : List ((ℕ × ℕ) × ℚ))
    (src dst : ℕ) (dem : ℚ) :
    (computeMetrics edges flows src dst dem).avg_utilization =
      if 0 < (edges.map (fun e => e.capacity)).sum then
        (flows.map (fun p => p.2)).sum / (edges.map (fun e => e.capacity)).sum
      else 0 := rfl

/-- C7 counterexample: with an edge carrying flow 1/200 (below the 0.01
threshold) next to an edge carrying flow 1, the reported average latency is
(1·10)/(1 + 1/200) = 2000/201, whereas dividing the thresholded latency sum
by the total *active* flow — as the claim states — gives 10/1 = 10: the
code's denominator is the sum of all flows, unthresholded. -/
theorem avg_latency_denominator_counterexample :
    (computeMetrics [⟨0, 1, 5, 1, 10⟩, ⟨1, 2, 5, 1, 10⟩]
      [((0, 1), 1/200), ((1, 2), 1)] 0 2 1).avg_latency = 2000/201 ∧
    avgLatencySpecForm [⟨0, 1, 5, 1, 10⟩, ⟨1, 2, 5, 1, 10⟩]
      [((0, 1), 1/200), ((1, 2), 1)] = 10 ∧
    (computeMetrics [⟨0, 1, 5, 1, 10⟩, ⟨1, 2, 5, 1, 10⟩]
      [((0, 1), 1/200), ((1, 2), 1)] 0 2 1).avg_latency ≠
      avgLatencySpecForm [⟨0, 1, 5, 1, 10⟩, ⟨1, 2, 5, 1, 10⟩]
        [((0, 1), 1/200), ((1, 2), 1)] := by
  have hd1 : decide (EPSQ < (1 : ℚ)/200) = false := by
    rw [decide_eq_false_iff_not, EPSQ_eq]
    norm_num
  have hd2 : decide (EPSQ < (1 : ℚ)) = true := by
    rw [decide_eq_true_eq, EPSQ_eq]
    norm_num
  refine ⟨?_, ?_, ?_⟩ <;>
    norm_num [computeMetrics_avg_latency, avgLatencySpecForm, mlat, medgeLookup, hd1, hd2]

/-- C7 (amended): in the metric block of `NetworkOptimizer.solve`, the
average latency is the thresholded flow-weighted latency sum divided by the
sum of *all* flows (thresholded in the numerator only), 0 whenever that
total is 0; average utilization is total flow divided by total capacity, 0
whenever total capacity is 0 — zero denominators always yield 0, never an
error. -/
theorem metrics_division_guards_amended :
    ∀ (edges : List MEdge) (flows : List ((ℕ × ℕ) × ℚ)) (src dst : ℕ) (dem : ℚ),
      ((computeMetrics edges flows src dst dem).total_flow = 0 →
        (computeMetrics edges flows src dst dem).avg_latency = 0) ∧
      (0 < (computeMetrics edges flows src dst dem).total_flow →
        (computeMetrics edges flows src dst dem).avg_latency *
          (computeMetrics edges flows src dst dem).total_flow =
          ((flows.filter (fun p => decide (EPSQ < p.2))).map
            (fun p => p.2 * mlat edges p.1)).sum) ∧
      ((computeMetrics edges flows src dst dem).total_capacity = 0 →
        (computeMetrics edges flows src dst dem).avg_utilization = 0) ∧
      (0 < (computeMetrics edges flows src dst dem).total_capacity →
        (computeMetrics edges flows src dst dem).avg_utilization *
          (computeMetrics edges flows src dst dem).total_capacity =
          (computeMetrics edges flows src dst dem).total_flow) := by
  intro edges flows src dst dem
  refine ⟨?_, ?_, ?_, ?_⟩
  · intro h
    rw [computeMetrics_avg_latency, if_neg]
    rw [computeMetrics_total_flow] at h
    rw [h]
    exact lt_irrefl 0
  · intro h
    rw [computeMetrics_total_flow] at h
    rw [computeMetrics_avg_latency, computeMetrics_total_flow, if_pos h]
    exact div_mul_cancel₀ _ (ne_of_gt h)
  · intro h
    rw [computeMetrics_avg_utilization, if_neg]
    rw [computeMetrics_total_capacity] at h
    rw [h]
    exact lt_irrefl 0
  · intro h
    rw [computeMetrics_total_capacity] at h
    rw [computeMetrics_avg_utilization, computeMetrics_total_capacity,
      computeMetrics_total_flow, if_pos h]
    exact div_mul_cancel₀ _ (ne_of_gt h)

/-- Witness for the amended C7 theorem at a concrete instance with positive
total flow and positive total capacity. -/
theorem metrics_division_guards_amended_witness :
    ((computeMetrics [⟨0, 1, 5, 1, 10⟩] [((0, 1), 1)] 0 1 1).avg_latency *
      (computeMetrics [⟨0, 1, 5, 1, 10⟩] [((0, 1), 1)] 0 1 1).total_flow =
      (([((0, 1), (1 : ℚ))].filter (fun p => decide (EPSQ < p.2))).map
        (fun p => p.2 * mlat [⟨0, 1, 5, 1, 10⟩] p.1)).sum) ∧
    ((computeMetrics [⟨0, 1, 5, 1, 10⟩] [((0, 1), 1)] 0 1 1).avg_utilization *
      (computeMetrics [⟨0, 1, 5, 1, 10⟩] [((0, 1), 1)] 0 1 1).total_capacity =
      (computeMetrics [⟨0, 1, 5, 1, 10⟩] [((0, 1), 1)] 0 1 1).total_flow) := by
  have h1 : 0 < (computeMetrics [⟨0, 1, 5, 1, 10⟩] [((0, 1), (1 : ℚ))] 0 1 1).total_flow := by
    rw [computeMetrics_total_flow]
    norm_num
  have h2 : 0 < (computeMetrics [⟨0, 1, 5, 1, 10⟩] [((0, 1), (1 : ℚ))] 0 1 1).total_capacity := by
    rw [computeMetrics_total_capacity]
    norm_num
  exact ⟨(metrics_division_guards_amended [⟨0, 1, 5, 1, 10⟩] [((0, 1), 1)] 0 1 1).2.1 h1,
    (metrics_division_guards_amended [⟨0, 1, 5, 1, 10⟩] [((0, 1), 1)] 0 1 1).2.2.2 h2⟩

/-! ## Claim C4 -/

/-- C4: in every feasible solution of the routing model and of the
evacuation model, the flow on every edge is bounded by the edge's declared
capacity, and a zero "used" indicator forces zero flow — both are
consequences of the bounds and the `flow ≤ capacity × used` linking
constraints the builders emit. -/
theorem capacity_link_invariant :
    (∀ (numNodes : ℕ) (edges : List MEdge) (demand : ℚ) (uR uB : Bool)
      (flow used : ℕ × ℕ → ℚ),
      NetworkFeasible numNodes edges demand uR uB flow used →
      ∀ e ∈ edges, flow (e.src, e.dst) ≤ mcap edges (e.src, e.dst) ∧
        (used (e.src, e.dst) = 0 → flow (e.src, e.dst) = 0)) ∧
    (∀ (sources : List (String × ℤ)) (sinks : List String) (edges : List NEdge)
      (mt : ℤ) (x y : String × String → ℤ) (t : String → ℤ) (tmax : ℤ),
      EvacuationFeasible sources sinks edges mt x y t tmax →
      ∀ e ∈ edges, x (e.u, e.v) ≤ capOf edges (e.u, e.v) ∧
        (y (e.u, e.v) = 0 → x (e.u, e.v) = 0)) := by
  constructor
  · rintro nn edges dem uR uB flow used ⟨hb, hbin, hbal, hcap, hlink, hrel, hbalp⟩ e he
    refine ⟨hcap e he, fun h0 => ?_⟩
    have h1 := hlink e he
    rw [h0, mul_zero] at h1
    exact le_antisymm h1 (hb e he).1
  · rintro srcs sinks edges mt x y t tmax ⟨hb, hbin, ht, htm, hnode, hlink, htime, hagg, hmt⟩ e he
    refine ⟨(hb e he).2, fun h0 => ?_⟩
    have h1 := hlink e he
    rw [h0, mul_zero] at h1
    exact le_antisymm h1 (hb e he).1

/-- Witness for C4: a feasible point of each model (all-zero flows with
demand 0 for the routing model; the saturated one-edge evacuation with one
person) at which the theorem's conclusions are instantiated. -/
theorem capacity_link_invariant_witness :
    (NetworkFeasible 2 [⟨0, 1, 3, 1, 1⟩] 0 true true (fun _ => 0) (fun _ => 0) ∧
      (0 : ℚ) ≤ mcap [⟨0, 1, 3, 1, 1⟩] (0, 1)) ∧
    (EvacuationFeasible [("A", 1)] ["B"] [⟨"A", "B", 1, 1⟩] 1 (fun _ => 1) (fun _ => 1)
        (fun _ => 1) 1 ∧
      (1 : ℤ) ≤ capOf [⟨"A", "B", 1, 1⟩] ("A", "B")) := by
  have hN : NetworkFeasible 2 [⟨0, 1, 3, 1, 1⟩] 0 true true (fun _ => 0) (fun _ => 0) := by
    refine ⟨?_, ?_, ?_, ?_, ?_, ?_, ?_⟩ <;>
      norm_num [mcap, medgeLookup, mInflow, mOutflow, List.range]
  have hE : EvacuationFeasible [("A", 1)] ["B"] [⟨"A", "B", 1, 1⟩] 1 (fun _ => 1) (fun _ => 1)
      (fun _ => 1) 1 := by
    unfold EvacuationFeasible
    decide
  refine ⟨⟨hN, ?_⟩, hE, ?_⟩
  · exact ((capacity_link_invariant.1 2 [⟨0, 1, 3, 1, 1⟩] 0 true true (fun _ => 0)
      (fun _ => 0) hN) ⟨0, 1, 3, 1, 1⟩ (by simp)).1
  · exact ((capacity_link_invariant.2 [("A", 1)] ["B"] [⟨"A", "B", 1, 1⟩] 1 (fun _ => 1)
      (fun _ => 1) (fun _ => 1) 1 hE) ⟨"A", "B", 1, 1⟩ (by simp)).1

/-! ## Claim C6 -/

theorem mem_pyRange (t a b : ℤ) : t ∈ pyRange a b ↔ a ≤ t ∧ t < b := by
  constructor
  · intro h
    unfold pyRange at h
    obtain ⟨i, hi, heq⟩ := List.mem_map.1 h
    rw [List.mem_range] at hi
    omega
  · intro h
    unfold pyRange
    refine List.mem_map.2 ⟨(t - a).toNat, List.mem_range.2 ?_, ?_⟩
    · omega
    · omega

/-- For a pointwise-nonnegative summand, two distinct members contribute at
most the whole sum. -/
theorem pair_le_sum (l : List ℤ) (f : ℤ → ℚ) (hnn : ∀ z ∈ l, 0 ≤ f z) (t1 t2 : ℤ)
    (h1 : t1 ∈ l) (h2 : t2 ∈ l) (hne : t1 ≠ t2) : f t1 + f t2 ≤ (l.map f).sum := by
  have hp : l.Perm (t1 :: l.erase t1) := List.perm_cons_erase h1
  have h2' : t2 ∈ l.erase t1 := (List.mem_erase_of_ne (Ne.symm hne)).2 h2
  have hp2 : (l.erase t1).Perm (t2 :: (l.erase t1).erase t2) := List.perm_cons_erase h2'
  have hs1 : (l.map f).sum = f t1 + ((l.erase t1).map f).sum := by
    rw [(hp.map f).sum_eq]
    simp
  have hs2 : ((l.erase t1).map f).sum = f t2 + (((l.erase t1).erase t2).map f).sum := by
    rw [(hp2.map f).sum_eq]
    simp
  have hnn2 : 0 ≤ (((l.erase t1).erase t2).map f).sum := by
    apply List.sum_nonneg
    intro z hz
    obtain ⟨t', ht', rfl⟩ := List.mem_map.1 hz
    exact hnn t' (List.erase_subset _ _ (List.erase_subset _ _ ht'))
  rw [hs1, hs2]
  linarith

/-- The last-match foldl of the schedule extraction: a `some` result comes
either from an element of the list whose value exceeds 1/2 or from the
initial accumulator. -/
theorem foldl_sched_mem (f : ℤ → ℚ) :
    ∀ (l : List ℤ) (acc : Option ℤ) (t : ℤ),
      l.foldl (fun acc s => if (1 : ℚ)/2 < f s then some s else acc) acc = some t →
      ((1 : ℚ)/2 < f t ∧ t ∈ l) ∨ acc = some t := by
  intro l
  induction l with
  | nil => exact fun acc t h => Or.inr h
  | cons c cs ih =>
    intro acc t h
    simp only [List.foldl_cons] at h
    rcases ih _ t h with h' | h'
    · exact Or.inl ⟨h'.1, List.mem_cons_of_mem _ h'.2⟩
    · by_cases hc : (1 : ℚ)/2 < f c
      · rw [if_pos hc] at h'
        have := Option.some.inj h'
        subst this
        exact Or.inl ⟨hc, List.mem_cons_self _ _⟩
      · rw [if_neg hc] at h'
        exact Or.inr h'

/-- C6: the mission-scheduling model creates a start variable exactly for
the offsets t with 0 ≤ t and t + dur ≤ horizon; in every feasible solution,
offsets violating the deadline carry value 0, at most one start variable of
a mission equals 1, and any mission the extracted schedule reports as
scheduled has an active start variable meeting its deadline. -/
theorem military_start_time_model :
    (∀ horizon dur t : ℤ, t ∈ startOffsets horizon dur ↔ 0 ≤ t ∧ t + dur ≤ horizon) ∧
    (∀ (missions : List Mission) (resources : List (String × ℚ)) (horizon : ℤ)
      (x : String → ℤ → ℚ),
      MilitaryFeasible missions resources horizon x →
      ∀ m ∈ missions,
        (∀ t ∈ startOffsets horizon m.dur, deadlineOf m horizon < t + m.dur → x m.id t = 0) ∧
        (∀ t1 ∈ startOffsets horizon m.dur, ∀ t2 ∈ startOffsets horizon m.dur,
          x m.id t1 = 1 → x m.id t2 = 1 → t1 = t2) ∧
        (∀ t : ℤ, scheduleOf x horizon m = some t →
          x m.id t = 1 ∧ t + m.dur ≤ deadlineOf m horizon)) := by
  constructor
  · intro horizon dur t
    unfold startOffsets
    rw [mem_pyRange]
    omega
  · rintro missions resources horizon x ⟨hbin, hres, hdead, honce⟩ m hm
    refine ⟨fun t ht hd => hdead m hm t ht hd, ?_, ?_⟩
    · intro t1 h1 t2 h2 hx1 hx2
      by_contra hne
      have hsum := honce m hm
      have hnn : ∀ z ∈ startOffsets horizon m.dur, 0 ≤ x m.id z := by
        intro z hz
        rcases hbin m hm z hz with h | h <;> simp [h]
      have hle := pair_le_sum (startOffsets horizon m.dur) (x m.id) hnn t1 t2 h1 h2 hne
      rw [hx1, hx2] at hle
      linarith
    · intro t hsched
      unfold scheduleOf at hsched
      rcases foldl_sched_mem (x m.id) _ none t hsched with ⟨hgt, hmem⟩ | hnone
      · have hx1 : x m.id t = 1 := by
          rcases hbin m hm t hmem with h | h
          · rw [h] at hgt
            norm_num at hgt
          · exact h
        refine ⟨hx1, ?_⟩
        by_contra hdl
        push_neg at hdl
        have h0 := hdead m hm t hmem hdl
        rw [hx1] at h0
        norm_num at h0
      · cases hnone

/-- Witness for C6: a single mission of duration 2, deadline 3, horizon 4,
with the incumbent that starts the mission at hour 0. -/
theorem military_start_time_model_witness :
    ((0 : ℤ) ∈ startOffsets 4 2 ↔ (0 : ℤ) ≤ 0 ∧ (0 : ℤ) + 2 ≤ 4) ∧
    MilitaryFeasible [⟨"M1", 2, 1, some 3, []⟩] [] 4
      (fun _ t => if t = 0 then 1 else 0) ∧
    ((fun (_ : String) (t : ℤ) => if t = 0 then (1 : ℚ) else 0) "M1" 0 = 1 ∧
      (0 : ℤ) + (2 : ℤ) ≤ deadlineOf ⟨"M1", 2, 1, some 3, []⟩ 4) := by
  have hoff : startOffsets 4 2 = [0, 1, 2] := by decide
  have hfeas : MilitaryFeasible [⟨"M1", 2, 1, some 3, []⟩] [] 4
      (fun _ t => if t = 0 then 1 else 0) := by
    refine ⟨by decide, by decide, by decide, ?_⟩
    intro m hm
    simp only [List.mem_singleton] at hm
    subst hm
    norm_num [hoff]
  have hsched : scheduleOf (fun _ t => if t = 0 then (1 : ℚ) else 0) 4
      ⟨"M1", 2, 1, some 3, []⟩ = some 0 := by
    norm_num [scheduleOf, hoff]
  exact ⟨military_start_time_model.1 4 2 0, hfeas,
    (military_start_time_model.2 [⟨"M1", 2, 1, some 3, []⟩] [] 4
      (fun _ t => if t = 0 then 1 else 0) hfeas ⟨"M1", 2, 1, some 3, []⟩
      (by simp)).2.2 0 hsched⟩

/-! ## Claim C8 -/

/-- Every pair emitted by the dfs scan extends the current path, ends at the
destination, and carries a remaining flow above the threshold. -/
theorem dfsScan_emits (flows : List ((ℕ × ℕ) × ℚ)) (dst : ℕ) :
    ∀ (fuel : ℕ) (toScan : List ((ℕ × ℕ) × ℚ)) (node : ℕ) (vis path : List ℕ) (rem : ℚ)
      (p : List ℕ) (r : ℚ), (p, r) ∈ dfsScan flows dst fuel toScan node vis path rem →
      (∃ q, q ≠ [] ∧ p = path ++ q) ∧ p.getLast? = some dst ∧ EPSQ < r := by
  intro fuel
  induction fuel with
  | zero =>
    intro toScan
    induction toScan with
    | nil =>
      intro node vis path rem p r h
      rw [dfsScan] at h
      cases h
    | cons hd tl iht =>
      obtain ⟨⟨i, j⟩, f⟩ := hd
      intro node vis path rem p r h
      rw [dfsScan] at h
      split at h
      · rw [List.mem_append] at h
        rcases h with hsub | htl
        · split at hsub
          · simp only [List.mem_singleton, Prod.mk.injEq] at hsub
            obtain ⟨rfl, rfl⟩ := hsub
            have hj : j = dst := by
              rename_i hc
              exact hc.1
            refine ⟨⟨[j], by simp, rfl⟩, ?_, ?_⟩
            · rw [hj] at *
              simp
            · rename_i hc
              exact hc.2
          · cases hsub
        · obtain ⟨⟨q, hq, rfl⟩, hl, hr⟩ := iht node (vis ++ [j]) (path ++ [j]) rem p r htl
          exact ⟨⟨[j] ++ q, by simp, by simp⟩, hl, hr⟩
      · exact iht node vis path rem p r h
  | succ n ihn =>
    intro toScan
    induction toScan with
    | nil =>
      intro node vis path rem p r h
      rw [dfsScan] at h
      cases h
    | cons hd tl iht =>
      obtain ⟨⟨i, j⟩, f⟩ := hd
      intro node vis path rem p r h
      rw [dfsScan] at h
      split at h
      · rw [List.mem_append] at h
        rcases h with hsub | htl
        · split at hsub
          · simp only [List.mem_singleton, Prod.mk.injEq] at hsub
            obtain ⟨rfl, rfl⟩ := hsub
            have hj : j = dst := by
              rename_i hc
              exact hc.1
            refine ⟨⟨[j], by simp, rfl⟩, ?_, ?_⟩
            · rw [hj] at *
              simp
            · rename_i hc
              exact hc.2
          · obtain ⟨⟨q, hq, rfl⟩, hl, hr⟩ :=
              ihn flows j (vis ++ [j]) (path ++ [j]) (min rem f) p r hsub
            exact ⟨⟨[j] ++ q, by simp, by simp⟩, hl, hr⟩
        · obtain ⟨⟨q, hq, rfl⟩, hl, hr⟩ := iht node (vis ++ [j]) (path ++ [j]) rem p r htl
          exact ⟨⟨[j] ++ q, by simp, by simp⟩, hl, hr⟩
      · exact iht node vis path rem p r h

/-- C8 (amended): `find_main_paths` returns at most 5 paths; every returned
path starts at the source, ends at the destination, and carries a reported
flux above the 0.01 threshold (propagated as min of the incoming remainder
and the edge flows).  The stronger reading of the claim — that each
returned node sequence is itself a flow-carrying path — fails; see the
counterexample. -/
theorem find_main_paths_amended :
    ∀ (flows : List ((ℕ × ℕ) × ℚ)) (src dst : ℕ) (demand : ℚ),
      (find_main_paths flows src dst demand).length ≤ 5 ∧
      ∀ p r, (p, r) ∈ find_main_paths flows src dst demand →
        p.head? = some src ∧ p.getLast? = some dst ∧ EPSQ < r := by
  intro flows src dst demand
  constructor
  · exact List.length_take_le 5 _
  · intro p r hmem
    unfold find_main_paths at hmem
    have hmem' := List.take_subset 5 _ hmem
    split at hmem'
    · simp only [List.mem_singleton, Prod.mk.injEq] at hmem'
      obtain ⟨rfl, rfl⟩ := hmem'
      rename_i hc
      exact ⟨rfl, by simp [hc.1], hc.2⟩
    · obtain ⟨⟨q, hq, rfl⟩, hl, hr⟩ :=
        dfsScan_emits flows dst (flows.length + 1) flows src [src] [src] demand p r hmem'
      exact ⟨rfl, hl, hr⟩

/-- Witness for the amended C8 theorem on the two-edge line network. -/
theorem find_main_paths_amended_witness :
    (find_main_paths [((0, 1), 1), ((1, 2), 1)] 0 2 1).length ≤ 5 ∧
    (([0, 1, 2] : List ℕ).head? = some 0 ∧ ([0, 1, 2] : List ℕ).getLast? = some 2 ∧
      EPSQ < (1 : ℚ)) := by
  have hmem : (([0, 1, 2] : List ℕ), (1 : ℚ)) ∈
      find_main_paths [((0, 1), 1), ((1, 2), 1)] 0 2 1 := by
    simp [find_main_paths, dfsScan, show EPSQ < (1 : ℚ) from by decide]
  exact ⟨(find_main_paths_amended [((0, 1), 1), ((1, 2), 1)] 0 2 1).1,
    (find_main_paths_amended [((0, 1), 1), ((1, 2), 1)] 0 2 1).2 [0, 1, 2] 1 hmem⟩

/-- C8 counterexample: on the diamond network 0→1→3, 0→2→3 (all flows 1,
demand 1) the second reported path is the node sequence 0,1,2,3 — the
`path` list mutated by the first sibling branch leaks into the second — and
that sequence is not a flow path at all: its consecutive pair (1,2) is not
an edge carrying thresholded flow. -/
theorem find_main_paths_sibling_leak :
    find_main_paths [((0, 1), 1), ((0, 2), 1), ((1, 3), 1), ((2, 3), 1)] 0 3 1 =
      [([0, 1, 3], 1), ([0, 1, 2, 3], 1)] ∧
    ¬ specFlowPath [((0, 1), 1), ((0, 2), 1), ((1, 3), 1), ((2, 3), 1)] 0 3 [0, 1, 2, 3] := by
  constructor
  · simp [find_main_paths, dfsScan, show EPSQ < (1 : ℚ) from by decide]
  · rintro ⟨-, -, -, hch⟩
    simp only [List.chain'_cons] at hch
    obtain ⟨-, ⟨f, hf, -⟩, -⟩ := hch
    simp at hf
